import Mathlib

/-!
Verification of the League_Insights_AI backend ingestion-and-analytics
pipeline (src/backend/app.py) against its natural-language specification.

The Python source is shallowly embedded: the pure cores of the route
handlers (dedup filtering, per-match ratio computation, timeline insight
derivation, monthly bucketing, watermark computation, pagination control
flow) are translated into executable Lean definitions over lists,
naturals, integers and rationals.  Machine integers in the source are
unbounded Python ints, so `Nat`/`Int` model them exactly; Python float
division on integer operands is modelled by `ℚ` division, and Python
floor division `//` on non-negative ints by `Nat` division.
-/

/-- One entry of `info.participants` of a Riot match-detail payload,
restricted to the fields read by `fetch_match_details` and the timeline
processor (app.py lines 332-399, 1051-1061). -/
structure Participant where
  puuid : String
  teamId : Nat
  win : Bool
  teamPosition : String
  championName : String
  kills : Nat
  deaths : Nat
  assists : Nat
  totalDamageDealtToChampions : Nat
  totalDamageTaken : Nat
  totalTimeSpentDead : Nat
  goldEarned : Nat
  totalMinionsKilled : Nat
  neutralMinionsKilled : Nat
  totalEnemyJungleMinionsKilled : Nat
  totalAllyJungleMinionsKilled : Nat
  visionScore : Nat
  wardsPlaced : Nat
  wardsKilled : Nat
deriving DecidableEq, Repr

/-- The per-objective kill counters of one `teams[i].objectives` block
(app.py lines 346-351); each objective type defaults to 0 when the
payload omits it, which the ingest code realises with `.get(..., 0)`. -/
structure TeamObjectives where
  dragon : Nat := 0
  baron : Nat := 0
  riftHerald : Nat := 0
  tower : Nat := 0
  inhibitor : Nat := 0
deriving DecidableEq, Repr

/-- One entry of `info.teams` (app.py line 346). -/
structure Team where
  teamId : Nat
  objectives : TeamObjectives
deriving DecidableEq, Repr

/-- The persisted `Match` model (app.py lines 65-110): one row per
participant-of-interest per match, carrying per-participant counters and
the four team totals computed at ingest time. -/
structure Match where
  id : String
  game_mode : String
  duration : Nat
  win : Bool
  timestamp : Int
  role : String
  champion : String
  puuid : String
  kills : Nat
  deaths : Nat
  assists : Nat
  damage : Nat
  damage_taken : Nat
  time_dead : Nat
  gold : Nat
  cs : Nat
  neutral_cs : Nat
  enemy_jungle_cs : Nat
  ally_jungle_cs : Nat
  vision : Nat
  wards_placed : Nat
  wards_killed : Nat
  dragons : Nat
  barons : Nat
  heralds : Nat
  towers : Nat
  inhibitors : Nat
  team_kills : Nat
  team_damage : Nat
  team_gold : Nat
  team_vision : Nat
deriving DecidableEq, Repr, Inhabited

/-- The pure core of `fetch_match_details` (app.py lines 326-400): locate
the requesting player's participant entry (absence aborts the item), sum
the four team-total counters over all participants sharing that player's
team id, read the team's objective block defaulting each type to 0, and
assemble the row. -/
def fetch_match_details (match_id game_mode : String) (gameDuration : Nat)
    (gameStartTimestamp : Int) (participants : List Participant)
    (teams : List Team) (puuid : String) : Option Match :=
  (participants.find? (fun p => p.puuid == puuid)).map (fun participant =>
    let team_id := participant.teamId
    let team_participants := participants.filter (fun p => p.teamId == team_id)
    let team_kills := (team_participants.map Participant.kills).sum
    let team_damage := (team_participants.map Participant.totalDamageDealtToChampions).sum
    let team_gold := (team_participants.map Participant.goldEarned).sum
    let team_vision := (team_participants.map Participant.visionScore).sum
    let objectives := ((teams.find? (fun t => t.teamId == team_id)).map Team.objectives).getD {}
    { id := match_id
      game_mode := game_mode
      duration := gameDuration
      win := participant.win
      timestamp := gameStartTimestamp
      role := participant.teamPosition
      champion := participant.championName
      puuid := puuid
      kills := participant.kills
      deaths := participant.deaths
      assists := participant.assists
      damage := participant.totalDamageDealtToChampions
      damage_taken := participant.totalDamageTaken
      time_dead := participant.totalTimeSpentDead
      gold := participant.goldEarned
      cs := participant.totalMinionsKilled
      neutral_cs := participant.neutralMinionsKilled
      enemy_jungle_cs := participant.totalEnemyJungleMinionsKilled
      ally_jungle_cs := participant.totalAllyJungleMinionsKilled
      vision := participant.visionScore
      wards_placed := participant.wardsPlaced
      wards_killed := participant.wardsKilled
      dragons := objectives.dragon
      barons := objectives.baron
      heralds := objectives.riftHerald
      towers := objectives.tower
      inhibitors := objectives.inhibitor
      team_kills := team_kills
      team_damage := team_damage
      team_gold := team_gold
      team_vision := team_vision })

/-- Per-match kill participation (app.py line 572):
`(kills + assists) / team_kills if team_kills > 0 else 0`. -/
def kill_participation (m : Match) : ℚ :=
  if 0 < m.team_kills then ((m.kills : ℚ) + m.assists) / m.team_kills else 0

/-- Per-match damage share (app.py line 576). -/
def damage_share (m : Match) : ℚ :=
  if 0 < m.team_damage then (m.damage : ℚ) / m.team_damage else 0

/-- Per-match gold share (app.py line 580). -/
def gold_share (m : Match) : ℚ :=
  if 0 < m.team_gold then (m.gold : ℚ) / m.team_gold else 0

/-- Per-match vision share (app.py line 584). -/
def vision_share (m : Match) : ℚ :=
  if 0 < m.team_vision then (m.vision : ℚ) / m.team_vision else 0

/-- Per-match CS per minute (app.py line 588):
`(cs + neutral_cs) / (duration / 60) if duration > 0 else 0`. -/
def cs_per_min (m : Match) : ℚ :=
  if 0 < m.duration then ((m.cs : ℚ) + m.neutral_cs) / ((m.duration : ℚ) / 60) else 0

/-- The KDA used for extreme-game selection (app.py lines 655-656):
`(kills + assists) / deaths if deaths > 0 else kills + assists`. -/
def kda (m : Match) : ℚ :=
  if 0 < m.deaths then ((m.kills : ℚ) + m.assists) / m.deaths else (m.kills : ℚ) + m.assists

/-- The comeback classification of `process_single_match`
(app.py lines 1172-1182), a chain of guarded reassignments of the
default "neutral" evaluated against `early_dominance` and the final
gold-differential value. -/
def comeback_type (early_dominance last : ℚ) : String :=
  if early_dominance > 100 ∧ last > 500 then "dominated"
  else if early_dominance < -100 ∧ last > 500 then "comeback"
  else if early_dominance > 100 ∧ last < -500 then "throw"
  else if early_dominance < -100 ∧ last < -500 then "fell_behind"
  else "neutral"

/-- The `existing_pairs` query of `get_stats` (app.py lines 287-292): the
persisted (match id, puuid) pairs restricted to the discovered
identifiers.  The store is modelled by the list of its rows' key pairs. -/
def existing_pairs (rows : List (String × String)) (match_ids : List String) :
    List (String × String) :=
  rows.filter (fun r => r.1 ∈ match_ids)

/-- The `new_ids` filter of `get_stats` (app.py lines 305-308): the
discovered identifiers whose (id, this player) pair is not persisted. -/
def new_ids (match_ids : List String) (rows : List (String × String))
    (puuid : String) : List String :=
  match_ids.filter (fun mid => (mid, puuid) ∉ existing_pairs rows match_ids)

/-- Membership in `new_ids` is exactly: discovered, and not persisted for
this player. -/
lemma mem_new_ids_iff (match_ids : List String) (rows : List (String × String))
    (puuid : String) (mid : String) :
    mid ∈ new_ids match_ids rows puuid ↔
      mid ∈ match_ids ∧ (mid, puuid) ∉ rows := by
  simp only [new_ids, existing_pairs, List.mem_filter, decide_eq_true_eq,
    decide_not, Bool.not_eq_true', decide_eq_false_iff_not]
  constructor
  · rintro ⟨hm, hnot⟩
    exact ⟨hm, fun habs => hnot ⟨habs, hm⟩⟩
  · rintro ⟨hm, hnot⟩
    exact ⟨hm, fun habs => hnot habs.1⟩

/-- Claim C1: the sync engine's 'new' identifier set is exactly the
discovered identifiers with no persisted (match id, player id) row for
this player; in particular an identifier persisted only for a different
player is still selected for this player. -/
theorem claim1_dedup_per_player (match_ids : List String)
    (rows : List (String × String)) (puuid : String) :
    (∀ mid, mid ∈ new_ids match_ids rows puuid ↔
        mid ∈ match_ids ∧ (mid, puuid) ∉ rows) ∧
    (∀ mid other, mid ∈ match_ids → (mid, other) ∈ rows →
        (mid, puuid) ∉ rows → mid ∈ new_ids match_ids rows puuid) := by
  refine ⟨fun mid => mem_new_ids_iff match_ids rows puuid mid, ?_⟩
  intro mid other hm _hother hnot
  exact (mem_new_ids_iff match_ids rows puuid mid).mpr ⟨hm, hnot⟩

/-- Claim C1 witness: match "m1" is persisted for "alice" only, so it is
selected for "bob". -/
theorem claim1_dedup_per_player_witness :
    "m1" ∈ new_ids ["m1"] [("m1", "alice")] "bob" := by
  exact (claim1_dedup_per_player ["m1"] [("m1", "alice")] "bob").2
    "m1" "alice" (by decide) (by decide) (by decide)

/-- Claim C4: the comeback classification is a total function of
(early_dominance, last differential), each of the four quadrant labels
holds exactly on its guard, every input lands in exactly one of the five
categories, and the spec's three examples classify as stated. -/
theorem claim4_comeback_classification :
    (∀ e l : ℚ,
      (comeback_type e l = "dominated" ↔ e > 100 ∧ l > 500) ∧
      (comeback_type e l = "comeback" ↔ e < -100 ∧ l > 500) ∧
      (comeback_type e l = "throw" ↔ e > 100 ∧ l < -500) ∧
      (comeback_type e l = "fell_behind" ↔ e < -100 ∧ l < -500) ∧
      (comeback_type e l = "neutral" ↔
        ¬ ((e > 100 ∧ l > 500) ∨ (e < -100 ∧ l > 500) ∨
           (e > 100 ∧ l < -500) ∨ (e < -100 ∧ l < -500))) ∧
      (comeback_type e l = "dominated" ∨ comeback_type e l = "comeback" ∨
       comeback_type e l = "throw" ∨ comeback_type e l = "fell_behind" ∨
       comeback_type e l = "neutral")) ∧
    comeback_type 150 800 = "dominated" ∧
    comeback_type (-200) 900 = "comeback" ∧
    comeback_type 50 50 = "neutral" := by
  have key : ∀ e l : ℚ,
      (comeback_type e l = "dominated" ↔ e > 100 ∧ l > 500) ∧
      (comeback_type e l = "comeback" ↔ e < -100 ∧ l > 500) ∧
      (comeback_type e l = "throw" ↔ e > 100 ∧ l < -500) ∧
      (comeback_type e l = "fell_behind" ↔ e < -100 ∧ l < -500) ∧
      (comeback_type e l = "neutral" ↔
        ¬ ((e > 100 ∧ l > 500) ∨ (e < -100 ∧ l > 500) ∨
           (e > 100 ∧ l < -500) ∨ (e < -100 ∧ l < -500))) ∧
      (comeback_type e l = "dominated" ∨ comeback_type e l = "comeback" ∨
       comeback_type e l = "throw" ∨ comeback_type e l = "fell_behind" ∨
       comeback_type e l = "neutral") := by
    intro e l
    unfold comeback_type
    split_ifs with h1 h2 h3 h4 <;>
      refine ⟨?_, ?_, ?_, ?_, ?_, ?_⟩ <;>
      simp_all <;>
      first
        | (intro h; exact absurd h (by linarith [h1.1, h1.2]))
        | (rintro h h'; linarith)
        | tauto
        | (cases h1 with | intro ha hb => linarith)
        | (cases h2 with | intro ha hb => linarith)
        | (cases h3 with | intro ha hb => linarith)
        | (cases h4 with | intro ha hb => linarith)
        | (constructor <;> intro h <;> simp_all <;> tauto)
  refine ⟨key, ?_, ?_, ?_⟩
  · exact ((key 150 800).1).mpr (by norm_num)
  · exact ((key (-200) 900).2.1).mpr (by norm_num)
  · exact ((key 50 50).2.2.2.2.1).mpr (by push_neg; norm_num)

/-- The pre-pager watermark computation of `get_stats` (app.py lines
225-230): the most recent persisted match timestamp for this player, or
`None` when the player has no rows.  `Match.query...order_by(desc).first()`
is the maximum-timestamp row of the player's rows. -/
def last_match_timestamp (rows : List Match) (puuid : String) : Option Int :=
  ((rows.filter (fun m => m.puuid == puuid)).map Match.timestamp).max?

/-- The pager's startTime lower bound (app.py lines 226-230):
`int(last_match.timestamp / 1000)` when a row exists (Python float
division then `int` truncation, i.e. `Int.tdiv` by 1000), else
`int((datetime.now() - timedelta(days=365)).timestamp())`, modelled with
the invocation instant `now_epoch` in epoch seconds. -/
def sync_start_time (rows : List Match) (puuid : String) (now_epoch : Int) : Int :=
  match last_match_timestamp rows puuid with
  | some ts => Int.tdiv ts 1000
  | none => now_epoch - 365 * 86400

/-- Claim C7 counterexample: for a player with no persisted matches the
startTime default is not one fixed constant — two invocations one second
apart get different lower bounds (one year before each invocation). -/
theorem claim7_counterexample :
    sync_start_time [] "p" 31536000 = 0 ∧
    sync_start_time [] "p" 31536001 = 1 ∧
    sync_start_time [] "p" 31536000 ≠ sync_start_time [] "p" 31536001 := by
  refine ⟨by decide, by decide, by decide⟩

/-- Claim C7 (amended): with no persisted matches the startTime lower
bound is 365 days (31536000 s) before the invocation instant, hence
varies with it; for a previously seen player it is the maximal persisted
start timestamp of that player, converted from milliseconds to seconds
by truncating division by 1000. -/
theorem claim7_watermark (rows : List Match) (puuid : String)
    (now_epoch ts : Int) :
    (last_match_timestamp rows puuid = none →
        sync_start_time rows puuid now_epoch = now_epoch - 31536000) ∧
    (last_match_timestamp rows puuid = some ts →
        sync_start_time rows puuid now_epoch = Int.tdiv ts 1000 ∧
        ts ∈ (rows.filter (fun m => m.puuid == puuid)).map Match.timestamp ∧
        ∀ m ∈ rows, m.puuid = puuid → m.timestamp ≤ ts) := by
  constructor
  · intro h
    simp only [sync_start_time, h]
    norm_num
  · intro h
    have hmax := (@List.max?_eq_some_iff Int ts _ _
      ⟨fun h1 h2 => le_antisymm h1 h2⟩ (fun a => le_refl a)
      (fun a b => max_choice a b) (fun a b c => max_le_iff) _).1 h
    refine ⟨by simp only [sync_start_time, h], hmax.1, ?_⟩
    intro m hm hp
    exact hmax.2 m.timestamp
      (List.mem_map_of_mem Match.timestamp
        (List.mem_filter.mpr ⟨hm, by simp [hp]⟩))

/-- A concrete persisted row used by witnesses. -/
def sample_row (puuid : String) (timestamp : Int) : Match :=
  { id := "m", game_mode := "CLASSIC", duration := 1800, win := true,
    timestamp := timestamp, role := "MIDDLE", champion := "Ahri",
    puuid := puuid, kills := 5, deaths := 2, assists := 7, damage := 20000,
    damage_taken := 15000, time_dead := 30, gold := 12000, cs := 200,
    neutral_cs := 10, enemy_jungle_cs := 4, ally_jungle_cs := 6,
    vision := 25, wards_placed := 10, wards_killed := 3, dragons := 2,
    barons := 1, heralds := 1, towers := 5, inhibitors := 1,
    team_kills := 20, team_damage := 80000, team_gold := 60000,
    team_vision := 120 }

/-- Claim C7 witness: a player whose single row starts at 5000 ms gets
startTime 5 s regardless of the invocation instant. -/
theorem claim7_watermark_witness :
    sync_start_time [sample_row "p" 5000] "p" 123456 = 5 :=
  (((claim7_watermark [sample_row "p" 5000] "p" 123456 5000).2
      (by decide)).1).trans (by decide)

/-- One HTTP response of the match-ID listing endpoint, as observed by
one attempt of `fetch_match_ids` (app.py lines 237-258). -/
structure PageResponse where
  status : Nat
  body : List String
deriving DecidableEq, Repr

/-- The per-page fetch of `fetch_match_ids` (app.py lines 237-258): up to
5 attempts; a 429 consumes an attempt and retries on the next response;
a 200 returns the page body; any other status returns the empty list
(the explicit status set and the catch-all branch both return `[]`).
The list argument is the sequence of responses the endpoint would give
to successive attempts. -/
def fetch_match_ids : Nat → List PageResponse → List String
  | 0, _ => []
  | _ + 1, [] => []
  | n + 1, r :: rest =>
    if r.status = 429 then fetch_match_ids n rest
    else if r.status = 200 then r.body
    else []

/-- The pagination loop of `get_stats` (app.py lines 263-281): fetch a
page, stop as soon as a page yields no identifiers, otherwise append and
continue with the next page.  Each element of the outer list is the
response sequence for one page request. -/
def paginate_match_ids : List (List PageResponse) → List String
  | [] => []
  | attempts :: rest =>
    let batch := fetch_match_ids 5 attempts
    if batch.isEmpty then [] else batch ++ paginate_match_ids rest

/-- A first response that is neither 2xx nor 429 makes the page fetch
return the empty list. -/
lemma fetch_match_ids_soft_empty (n : Nat) (r : PageResponse)
    (tail : List PageResponse) (h429 : r.status ≠ 429)
    (h200 : r.status ≠ 200) :
    fetch_match_ids (n + 1) (r :: tail) = [] := by
  simp [fetch_match_ids, h429, h200]

/-- Claim C8: a non-2xx, non-429 page response is treated as an empty
page, and the pagination loop stops at the first page yielding zero
identifiers, returning exactly the identifiers gathered from the earlier
pages with no error surfaced (the model's only output channel is the
identifier list). -/
theorem claim8_pagination_soft_stop (r : PageResponse)
    (tail : List PageResponse) (pre : List (List PageResponse))
    (stop : List PageResponse) (rest : List (List PageResponse)) :
    (¬ (200 ≤ r.status ∧ r.status ≤ 299) → r.status ≠ 429 →
        fetch_match_ids 5 (r :: tail) = []) ∧
    ((∀ a ∈ pre, fetch_match_ids 5 a ≠ []) → fetch_match_ids 5 stop = [] →
        paginate_match_ids (pre ++ stop :: rest) =
          (pre.map (fetch_match_ids 5)).flatten) := by
  constructor
  · intro h2xx h429
    have h200 : r.status ≠ 200 := by
      intro h
      exact h2xx (by omega)
    exact fetch_match_ids_soft_empty 4 r tail h429 h200
  · intro hgood hstop
    induction pre with
    | nil => simp [paginate_match_ids, hstop]
    | cons a pre' ih =>
      have ha := hgood a (List.mem_cons_self a pre')
      have ih' := ih (fun b hb => hgood b (List.mem_cons_of_mem a hb))
      cases hfe : fetch_match_ids 5 a with
      | nil => exact absurd hfe ha
      | cons x xs =>
        simp [paginate_match_ids, hfe, ih']

/-- Claim C8 witness: a 404 page (even one carrying a body) stops
pagination after the first successful page, and the result is that first
page's identifiers. -/
theorem claim8_pagination_soft_stop_witness :
    paginate_match_ids [[⟨200, ["a"]⟩], [⟨404, ["x"]⟩], [⟨200, ["b"]⟩]] = ["a"] :=
  ((claim8_pagination_soft_stop ⟨404, ["x"]⟩ [] [[⟨200, ["a"]⟩]]
      [⟨404, ["x"]⟩] [[⟨200, ["b"]⟩]]).2 (by decide)
    ((claim8_pagination_soft_stop ⟨404, ["x"]⟩ [] [] [] []).1
      (by decide) (by decide))).trans (by decide)

/-- A guarded ratio `a / b if b > 0 else 0` over ingested counters stays
in [0, 1] whenever the numerator is bounded by the denominator. -/
lemma guarded_ratio_bounds (a b : Nat) (hab : a ≤ b) :
    0 ≤ (if 0 < b then (a : ℚ) / b else 0) ∧
      (if 0 < b then (a : ℚ) / b else 0) ≤ 1 := by
  split_ifs with h
  · have hb : (0 : ℚ) < b := by exact_mod_cast h
    exact ⟨by positivity, by rw [div_le_one hb]; exact_mod_cast hab⟩
  · norm_num

/-- Every row assembled by `fetch_match_details` has its own
damage/gold/vision counter bounded by the corresponding team total,
because the team total sums over the team participants and the found
participant is one of them. -/
lemma fetch_match_details_team_bounds (match_id game_mode : String)
    (dur : Nat) (ts : Int) (parts : List Participant) (teams : List Team)
    (puuid : String) (r : Match)
    (hr : fetch_match_details match_id game_mode dur ts parts teams puuid = some r) :
    r.damage ≤ r.team_damage ∧ r.gold ≤ r.team_gold ∧
      r.vision ≤ r.team_vision ∧ r.kills ≤ r.team_kills := by
  rw [fetch_match_details, Option.map_eq_some'] at hr
  obtain ⟨p, hfind, hrec⟩ := hr
  have hmem : p ∈ parts.filter (fun q => q.teamId == p.teamId) :=
    List.mem_filter.mpr ⟨List.mem_of_find?_eq_some hfind, by simp⟩
  subst hrec
  refine ⟨?_, ?_, ?_, ?_⟩ <;>
    exact List.single_le_sum (fun x _ => Nat.zero_le x) _
      (List.mem_map_of_mem _ hmem)

/-- Kill participation is never negative. -/
lemma kill_participation_nonneg (r : Match) : 0 ≤ kill_participation r := by
  unfold kill_participation
  split_ifs <;> positivity

/-- Kill participation is at most 1 when own kills plus assists do not
exceed the team's kills. -/
lemma kill_participation_le_one (r : Match)
    (h : r.kills + r.assists ≤ r.team_kills) : kill_participation r ≤ 1 := by
  unfold kill_participation
  split_ifs with hk
  · rw [div_le_one (by exact_mod_cast hk)]
    push_cast
    exact_mod_cast h
  · norm_num

/-- Claim C3 (amended): for every row produced by the ingest, the damage,
gold and vision shares are in [0, 1], each share and the kill
participation is exactly 0 when its team total is 0, the kill
participation is never negative, and it is at most 1 under the
additional payload property that own kills plus assists do not exceed
team kills (true of real upstream data, but not forced by the ingest,
hence the added hypothesis). -/
theorem claim3_ratio_bounds (match_id game_mode : String) (dur : Nat)
    (ts : Int) (parts : List Participant) (teams : List Team)
    (puuid : String) (r : Match)
    (hr : fetch_match_details match_id game_mode dur ts parts teams puuid = some r) :
    (0 ≤ damage_share r ∧ damage_share r ≤ 1) ∧
    (r.team_damage = 0 → damage_share r = 0) ∧
    (0 ≤ gold_share r ∧ gold_share r ≤ 1) ∧
    (r.team_gold = 0 → gold_share r = 0) ∧
    (0 ≤ vision_share r ∧ vision_share r ≤ 1) ∧
    (r.team_vision = 0 → vision_share r = 0) ∧
    (0 ≤ kill_participation r) ∧
    (r.kills + r.assists ≤ r.team_kills → kill_participation r ≤ 1) ∧
    (r.team_kills = 0 → kill_participation r = 0) := by
  obtain ⟨hd, hg, hv, _hk⟩ :=
    fetch_match_details_team_bounds match_id game_mode dur ts parts teams puuid r hr
  refine ⟨guarded_ratio_bounds _ _ hd, fun h0 => by simp [damage_share, h0],
    guarded_ratio_bounds _ _ hg, fun h0 => by simp [gold_share, h0],
    guarded_ratio_bounds _ _ hv, fun h0 => by simp [vision_share, h0],
    kill_participation_nonneg r, kill_participation_le_one r,
    fun h0 => by simp [kill_participation, h0]⟩

/-- A participant record with chosen identity, team and combat counters;
the remaining counters are fixed plausible values. -/
def sample_participant (puuid : String) (teamId kills assists : Nat) :
    Participant :=
  { puuid := puuid, teamId := teamId, win := false, teamPosition := "MIDDLE",
    championName := "Lux", kills := kills, deaths := 3, assists := assists,
    totalDamageDealtToChampions := 1000, totalDamageTaken := 800,
    totalTimeSpentDead := 20, goldEarned := 5000, totalMinionsKilled := 100,
    neutralMinionsKilled := 5, totalEnemyJungleMinionsKilled := 1,
    totalAllyJungleMinionsKilled := 2, visionScore := 10, wardsPlaced := 4,
    wardsKilled := 1 }

/-- The row ingested from a payload where the requesting player has 1
kill and 5 assists but is the only member of their team, so the team
total is 1 kill. -/
def claim3_row : Match :=
  (fetch_match_details "M1" "CLASSIC" 1800 0
      [sample_participant "me" 100 1 5, sample_participant "enemy" 200 0 0]
      [] "me").getD default

/-- Claim C3 counterexample: a persisted match whose team-kill total is
positive yet whose kill participation is 6, outside [0, 1] — the claim
as stated fails because the ingest does not bound assists by team
kills. -/
theorem claim3_counterexample :
    fetch_match_details "M1" "CLASSIC" 1800 0
        [sample_participant "me" 100 1 5, sample_participant "enemy" 200 0 0]
        [] "me" = some claim3_row ∧
    0 < claim3_row.team_kills ∧ 1 < kill_participation claim3_row := by
  refine ⟨rfl, by decide, ?_⟩
  have h6 : kill_participation claim3_row = 6 := by
    rw [kill_participation]
    norm_num [show claim3_row.team_kills = 1 from rfl,
      show claim3_row.kills = 1 from rfl,
      show claim3_row.assists = 5 from rfl]
  rw [h6]
  norm_num

/-- Claim C3 witness: the amended theorem applied to the concrete
ingest above yields the damage-share bounds. -/
theorem claim3_ratio_bounds_witness :
    0 ≤ damage_share claim3_row ∧ damage_share claim3_row ≤ 1 :=
  (claim3_ratio_bounds "M1" "CLASSIC" 1800 0
      [sample_participant "me" 100 1 5, sample_participant "enemy" 200 0 0]
      [] "me" claim3_row rfl).1

/-- One participant's data within one timeline frame
(`participantFrames` values), restricted to the field the gold
differential reads (app.py lines 1048, 1060). -/
structure ParticipantFrame where
  totalGold : Nat
deriving DecidableEq, Repr

/-- The enemy-gold collection of one frame of `process_single_match`
(app.py lines 1049-1061): walk the frame's participant entries, skip the
target player, resolve each participant id to a puuid (a falsy lookup is
skipped), and record the entry's gold exactly when some participant with
that puuid is on a different team than the target player. -/
def enemy_golds (pf_all : List (Nat × ParticipantFrame)) (my_pid : Nat)
    (pid_to_puuid : List (Nat × String)) (participants : List Participant)
    (my_team_id : Nat) : List Nat :=
  pf_all.filterMap (fun e =>
    if e.1 = my_pid then none
    else
      match pid_to_puuid.lookup e.1 with
      | none => none
      | some other_puuid =>
        if other_puuid = "" then none
        else if participants.any
            (fun p => p.puuid == other_puuid && p.teamId != my_team_id)
        then some e.2.totalGold
        else none)

/-- The recorded gold-differential sample of one frame (app.py lines
1063-1066): skipped when no enemy gold was collected, otherwise the
player's gold minus `sum // len` of the enemy golds — Python floor
division, i.e. `Nat` division. -/
def gold_diff_sample (my_gold : Nat) (egolds : List Nat) : Option Int :=
  if egolds = [] then none
  else some ((my_gold : Int) - (egolds.sum / egolds.length : Nat))

/-- The differential the spec describes for the same frame, stated from
the spec's words for comparison: the player's gold minus the arithmetic
mean of the enemy golds (spec section 4.6). -/
def gold_diff_spec (my_gold : Nat) (egolds : List Nat) : Option ℚ :=
  if egolds = [] then none
  else some ((my_gold : ℚ) - (egolds.sum : ℚ) / (egolds.length : ℚ))

/-- Frame data for the counterexample: the target player is participant
1 with 0 gold; the two enemies hold 0 and 1 gold. -/
def c5_pf_all : List (Nat × ParticipantFrame) :=
  [(1, ⟨0⟩), (2, ⟨0⟩), (3, ⟨1⟩)]

/-- Participant-id to puuid map for the counterexample frame. -/
def c5_map : List (Nat × String) := [(1, "me"), (2, "e1"), (3, "e2")]

/-- Match participants for the counterexample frame: the target player
on team 100, the two enemies on team 200. -/
def c5_participants : List Participant :=
  [sample_participant "me" 100 0 0, sample_participant "e1" 200 0 0,
   sample_participant "e2" 200 0 0]

/-- Claim C5 counterexample: with enemy golds {0, 1} and player gold 0,
the code records differential 0 (floor mean 0) while the player's gold
minus the arithmetic enemy mean is −1/2 — the recorded value is not the
claimed one. -/
theorem claim5_counterexample :
    enemy_golds c5_pf_all 1 c5_map c5_participants 100 = [0, 1] ∧
    gold_diff_sample 0 (enemy_golds c5_pf_all 1 c5_map c5_participants 100) =
      some 0 ∧
    gold_diff_spec 0 (enemy_golds c5_pf_all 1 c5_map c5_participants 100) =
      some (-(1 / 2 : ℚ)) ∧
    (gold_diff_sample 0 (enemy_golds c5_pf_all 1 c5_map c5_participants 100)).map
        (fun z => (z : ℚ)) ≠
      gold_diff_spec 0 (enemy_golds c5_pf_all 1 c5_map c5_participants 100) := by
  have he : enemy_golds c5_pf_all 1 c5_map c5_participants 100 = [0, 1] := rfl
  have hs : gold_diff_sample 0 (enemy_golds c5_pf_all 1 c5_map c5_participants 100) =
      some 0 := rfl
  have hq : gold_diff_spec 0 (enemy_golds c5_pf_all 1 c5_map c5_participants 100) =
      some (-(1 / 2 : ℚ)) := by
    rw [he]
    simp only [gold_diff_spec]
    rw [if_neg (by simp)]
    norm_num
  refine ⟨he, hs, hq, ?_⟩
  rw [hs, hq]
  intro hcontra
  have hzero : ((0 : Int) : ℚ) = -(1 / 2) := by simpa using hcontra
  norm_num at hzero

/-- Claim C5 (amended): a frame contributes a sample exactly when at
least one enemy participant has frame data; the recorded sample is the
player's gold minus the floor (integer division) of the enemy-gold mean,
so it sits within [q, q + 1) of the spec's mean-based differential q —
it can exceed the arithmetic-mean differential by the fractional part of
the enemy mean but never by 1 or more. -/
theorem claim5_gold_diff_floor (my_gold : Nat)
    (pf_all : List (Nat × ParticipantFrame)) (my_pid : Nat)
    (pid_to_puuid : List (Nat × String)) (participants : List Participant)
    (my_team_id : Nat) :
    (gold_diff_sample my_gold
        (enemy_golds pf_all my_pid pid_to_puuid participants my_team_id) = none ↔
      enemy_golds pf_all my_pid pid_to_puuid participants my_team_id = []) ∧
    (∀ (d : Int) (q : ℚ),
      gold_diff_sample my_gold
          (enemy_golds pf_all my_pid pid_to_puuid participants my_team_id) = some d →
      gold_diff_spec my_gold
          (enemy_golds pf_all my_pid pid_to_puuid participants my_team_id) = some q →
      q ≤ (d : ℚ) ∧ (d : ℚ) < q + 1) := by
  set eg := enemy_golds pf_all my_pid pid_to_puuid participants my_team_id with heg
  constructor
  · by_cases hne : eg = []
    · simp [gold_diff_sample, hne]
    · simp [gold_diff_sample, hne]
  · intro d q hd hq
    by_cases hne : eg = []
    · simp [gold_diff_sample, hne] at hd
    · have hn : 0 < eg.length := List.length_pos.mpr hne
      simp only [gold_diff_sample, gold_diff_spec, if_neg hne,
        Option.some.injEq] at hd hq
      have hfloor_le : ((eg.sum / eg.length : Nat) : ℚ) ≤ (eg.sum : ℚ) / eg.length :=
        Nat.cast_div_le
      have hlt : (eg.sum : ℚ) / eg.length < ((eg.sum / eg.length : Nat) : ℚ) + 1 := by
        rw [div_lt_iff₀ (by exact_mod_cast hn)]
        have hmod : eg.sum % eg.length < eg.length := Nat.mod_lt _ hn
        have hdm : eg.length * (eg.sum / eg.length) + eg.sum % eg.length = eg.sum :=
          Nat.div_add_mod eg.sum eg.length
        have h1 : eg.sum < (eg.sum / eg.length + 1) * eg.length := by
          calc eg.sum = eg.length * (eg.sum / eg.length) + eg.sum % eg.length :=
                hdm.symm
            _ < eg.length * (eg.sum / eg.length) + eg.length := by omega
            _ = (eg.sum / eg.length + 1) * eg.length := by ring
        calc (eg.sum : ℚ) < (((eg.sum / eg.length + 1) * eg.length : Nat) : ℚ) := by
              exact_mod_cast h1
          _ = (((eg.sum / eg.length : Nat) : ℚ) + 1) * eg.length := by
              rw [Nat.cast_mul, Nat.cast_add, Nat.cast_one]
      have hdq : (d : ℚ) = (my_gold : ℚ) - ((eg.sum / eg.length : Nat) : ℚ) := by
        rw [← hd]
        rw [Int.cast_sub, Int.cast_natCast, Int.cast_natCast]
      rw [hdq, ← hq]
      constructor
      · linarith
      · linarith

/-- Claim C5 witness: the amended theorem at the concrete frame gives
the bracketing of the recorded differential 0 around the mean-based
value −1/2. -/
theorem claim5_gold_diff_floor_witness :
    -(1 / 2 : ℚ) ≤ ((0 : Int) : ℚ) ∧ ((0 : Int) : ℚ) < -(1 / 2 : ℚ) + 1 :=
  (claim5_gold_diff_floor 0 c5_pf_all 1 c5_map c5_participants 100).2
    0 (-(1 / 2)) rfl (by
      have he : enemy_golds c5_pf_all 1 c5_map c5_participants 100 = [0, 1] := rfl
      rw [he]
      simp only [gold_diff_spec]
      rw [if_neg (by simp)]
      norm_num)

/-- Year and month of the civil (proleptic Gregorian) date that is `z0`
days after 1970-01-01, the standard days-to-civil conversion; models the
year-month part of Python's `datetime.fromtimestamp(...).strftime` used
for bucketing (app.py line 751), taken at UTC. -/
def civil_from_days (z0 : Int) : Int × Int :=
  let z := z0 + 719468
  let era := Int.fdiv z 146097
  let doe := z - era * 146097
  let yoe := Int.fdiv
    (doe - Int.fdiv doe 1460 + Int.fdiv doe 36524 - Int.fdiv doe 146096) 365
  let y := yoe + era * 400
  let doy := doe - (365 * yoe + Int.fdiv yoe 4 - Int.fdiv yoe 100)
  let mp := Int.fdiv (5 * doy + 2) 153
  let m := mp + (if mp < 10 then 3 else -9)
  (if m ≤ 2 then y + 1 else y, m)

/-- The year-month bucket key of a match-start timestamp in
milliseconds (app.py line 751): the civil year and month of the day the
timestamp falls in. -/
def month_key (ts : Int) : Int × Int :=
  civil_from_days (Int.fdiv ts 86400000)

/-- The per-month accumulator of `get_stats` (app.py lines 755-766),
holding the counters the monthly loop mutates. -/
structure MonthAcc where
  matches' : Nat
  wins : Nat
  total_kills : Nat
  total_deaths : Nat
  total_assists : Nat
  total_cs : Nat
  total_duration : Nat
  total_kp : ℚ
  total_damage_share : ℚ
  total_gold_share : ℚ
deriving Repr

/-- The freshly initialised month entry (app.py lines 755-766). -/
def empty_month : MonthAcc :=
  { matches' := 0, wins := 0, total_kills := 0, total_deaths := 0,
    total_assists := 0, total_cs := 0, total_duration := 0, total_kp := 0,
    total_damage_share := 0, total_gold_share := 0 }

/-- One iteration of the monthly loop body (app.py lines 770-790):
increment the counters of the match's bucket; the guarded ratio terms
add 0 when the corresponding team total is not positive. -/
def add_match_to_month (acc : MonthAcc) (m : Match) : MonthAcc :=
  { matches' := acc.matches' + 1
    wins := acc.wins + (if m.win then 1 else 0)
    total_kills := acc.total_kills + m.kills
    total_deaths := acc.total_deaths + m.deaths
    total_assists := acc.total_assists + m.assists
    total_cs := acc.total_cs + (m.cs + m.neutral_cs)
    total_duration := acc.total_duration + m.duration
    total_kp := acc.total_kp +
      (if 0 < m.team_kills then ((m.kills : ℚ) + m.assists) / m.team_kills else 0)
    total_damage_share := acc.total_damage_share +
      (if 0 < m.team_damage then (m.damage : ℚ) / m.team_damage else 0)
    total_gold_share := acc.total_gold_share +
      (if 0 < m.team_gold then (m.gold : ℚ) / m.team_gold else 0) }

/-- Route one match into the bucket keyed by its month, creating the
bucket on first sight — the association-list form of the
`monthly_stats[month]` dict updates (app.py lines 753-790). -/
def bump_month (m : Match) :
    List ((Int × Int) × MonthAcc) → List ((Int × Int) × MonthAcc)
  | [] => [(month_key m.timestamp, add_match_to_month empty_month m)]
  | (k, acc) :: rest =>
    if k = month_key m.timestamp then (k, add_match_to_month acc m) :: rest
    else (k, acc) :: bump_month m rest

/-- The full monthly aggregation pass over the persisted match list
(app.py lines 750-790). -/
def monthly_stats (ms : List Match) : List ((Int × Int) × MonthAcc) :=
  ms.foldl (fun s m => bump_month m s) []

/-- Season-level win total (app.py line 541). -/
def total_wins (ms : List Match) : Nat := ms.countP (fun m => m.win)

/-- Season-level kill total (app.py line 542). -/
def total_kills (ms : List Match) : Nat := (ms.map Match.kills).sum

/-- Unfolding equation of `bump_month` on the empty bucket list. -/
lemma bump_month_nil (m : Match) :
    bump_month m [] =
      [(month_key m.timestamp, add_match_to_month empty_month m)] := rfl

/-- Unfolding equation of `bump_month` on a non-empty bucket list. -/
lemma bump_month_cons (m : Match) (k : Int × Int) (acc : MonthAcc)
    (rest : List ((Int × Int) × MonthAcc)) :
    bump_month m ((k, acc) :: rest) =
      if k = month_key m.timestamp then (k, add_match_to_month acc m) :: rest
      else (k, acc) :: bump_month m rest := rfl

/-- Routing one match into its bucket raises the bucket-projected sum by
exactly that match's contribution. -/
lemma bump_month_sum (m : Match) (f : Match → Nat) (g : MonthAcc → Nat)
    (hstep : ∀ acc, g (add_match_to_month acc m) = g acc + f m)
    (hzero : g empty_month = 0) (s : List ((Int × Int) × MonthAcc)) :
    ((bump_month m s).map (fun e => g e.2)).sum =
      (s.map (fun e => g e.2)).sum + f m := by
  induction s with
  | nil =>
    rw [bump_month_nil]
    simp [hstep empty_month, hzero]
  | cons e rest ih =>
    obtain ⟨k, acc⟩ := e
    rw [bump_month_cons]
    by_cases hk : k = month_key m.timestamp
    · rw [if_pos hk]
      simp only [List.map_cons, List.sum_cons, hstep acc]
      omega
    · rw [if_neg hk]
      simp only [List.map_cons, List.sum_cons, ih]
      omega

/-- The fold of the monthly loop accumulates bucket-projected sums
additively over the match list. -/
lemma monthly_fold_sum (f : Match → Nat) (g : MonthAcc → Nat)
    (hstep : ∀ m acc, g (add_match_to_month acc m) = g acc + f m)
    (hzero : g empty_month = 0) (ms : List Match) :
    ∀ s, (((ms.foldl (fun s m => bump_month m s) s)).map (fun e => g e.2)).sum =
      (s.map (fun e => g e.2)).sum + (ms.map f).sum := by
  induction ms with
  | nil => intro s; simp
  | cons m rest ih =>
    intro s
    simp only [List.foldl_cons, List.map_cons, List.sum_cons]
    rw [ih (bump_month m s), bump_month_sum m f g (hstep m) hzero s]
    omega

/-- A list of ones sums to the length. -/
lemma sum_map_one (ms : List Match) :
    (ms.map (fun _ => (1 : Nat))).sum = ms.length := by
  induction ms with
  | nil => rfl
  | cons m rest ih =>
    simp [ih]
    omega

/-- Mapping the win indicator and summing counts the wins. -/
lemma sum_map_win (ms : List Match) :
    (ms.map (fun m => if m.win then 1 else 0)).sum = total_wins ms := by
  induction ms with
  | nil => rfl
  | cons m rest ih =>
    rw [List.map_cons, List.sum_cons, ih]
    unfold total_wins
    rw [List.countP_cons]
    by_cases h : m.win <;> simp [h] <;> omega

/-- Routing a match either leaves the bucket-key list unchanged (its
month already exists) or appends the new month at the end. -/
lemma bump_month_keys (m : Match) (s : List ((Int × Int) × MonthAcc)) :
    (bump_month m s).map Prod.fst =
      if month_key m.timestamp ∈ s.map Prod.fst then s.map Prod.fst
      else s.map Prod.fst ++ [month_key m.timestamp] := by
  induction s with
  | nil =>
    rw [bump_month_nil]
    simp
  | cons e rest ih =>
    obtain ⟨k, acc⟩ := e
    rw [bump_month_cons]
    by_cases hk : k = month_key m.timestamp
    · simp [hk]
    · rw [if_neg hk]
      by_cases hm : month_key m.timestamp ∈ rest.map Prod.fst
      · simp [ih, hm, List.mem_cons, Ne.symm hk]
      · simp [ih, hm, List.mem_cons, Ne.symm hk]

/-- The monthly fold keeps the bucket keys pairwise distinct. -/
lemma monthly_keys_nodup (ms : List Match) :
    ∀ s : List ((Int × Int) × MonthAcc), (s.map Prod.fst).Nodup →
      (((ms.foldl (fun s m => bump_month m s) s)).map Prod.fst).Nodup := by
  induction ms with
  | nil => intro s hs; simpa using hs
  | cons m rest ih =>
    intro s hs
    simp only [List.foldl_cons]
    refine ih (bump_month m s) ?_
    rw [bump_month_keys]
    by_cases hm : month_key m.timestamp ∈ s.map Prod.fst
    · simpa [hm] using hs
    · rw [if_neg hm]
      exact List.Nodup.append hs (List.nodup_singleton _)
        (fun a ha hb => hm (by simpa [List.mem_singleton.mp hb] using ha))

/-- Claim C6: every match lands in exactly one year-month bucket (the
bucket keys are pairwise distinct), and the monthly buckets' match
counts, win counts and kill totals sum to the season-level totals
exactly. -/
theorem claim6_monthly_totals (ms : List Match) :
    ((monthly_stats ms).map Prod.fst).Nodup ∧
    ((monthly_stats ms).map (fun e => e.2.matches')).sum = ms.length ∧
    ((monthly_stats ms).map (fun e => e.2.wins)).sum = total_wins ms ∧
    ((monthly_stats ms).map (fun e => e.2.total_kills)).sum = total_kills ms := by
  refine ⟨monthly_keys_nodup ms [] (by simp), ?_, ?_, ?_⟩
  · have h := monthly_fold_sum (fun _ => 1) MonthAcc.matches'
      (fun m acc => by simp [add_match_to_month]) rfl ms []
    simpa [monthly_stats, sum_map_one] using h
  · have h := monthly_fold_sum (fun m => if m.win then 1 else 0) MonthAcc.wins
      (fun m acc => by simp [add_match_to_month]) rfl ms []
    simpa [monthly_stats, sum_map_win] using h
  · have h := monthly_fold_sum Match.kills MonthAcc.total_kills
      (fun m acc => by simp [add_match_to_month]) rfl ms []
    simpa [monthly_stats, total_kills] using h

/-- One sync round's effect on the store keys (app.py lines 287-308 and
425-520): the rows inserted are exactly one `(mid, puuid)` pair per
identifier that survived the `new_ids` filter, appended to the store. -/
def sync_insert (rows : List (String × String)) (match_ids : List String)
    (puuid : String) : List (String × String) :=
  rows ++ (new_ids match_ids rows puuid).map (fun mid => (mid, puuid))

/-- One timeline-processing round's effect on the summary keys (app.py
lines 924-932 and 1247-1260): `existing_summaries` is the player's
summary rows, `new_match_ids` filters out pairs already summarised, and
one summary per successfully processed identifier (`ok`) is inserted. -/
def process_timelines_insert (summaries : List (String × String))
    (match_ids : List String) (puuid : String) (ok : String → Bool) :
    List (String × String) :=
  summaries ++
    (((match_ids.filter (fun mid =>
        (mid, puuid) ∉ summaries.filter (fun s => s.2 == puuid))).filter ok).map
      (fun mid => (mid, puuid)))

/-- A sync round preserves key uniqueness when the discovered list has
no duplicates. -/
lemma sync_insert_nodup (rows : List (String × String)) (ids : List String)
    (puuid : String) (hrows : rows.Nodup) (hids : ids.Nodup) :
    (sync_insert rows ids puuid).Nodup := by
  refine List.Nodup.append hrows
    (List.Nodup.map (fun a b h => congrArg Prod.fst h) (hids.filter _)) ?_
  rw [List.disjoint_left]
  intro a ha hb
  obtain ⟨mid, hmid, rfl⟩ := List.mem_map.mp hb
  exact ((mem_new_ids_iff ids rows puuid mid).mp hmid).2 ha

/-- When every discovered identifier is already persisted for this
player, the `new_ids` filter yields nothing. -/
lemma new_ids_eq_nil (ids : List String) (rows : List (String × String))
    (puuid : String) (h : ∀ mid ∈ ids, (mid, puuid) ∈ rows) :
    new_ids ids rows puuid = [] := by
  rw [List.eq_nil_iff_forall_not_mem]
  intro mid hmem
  have hm := (mem_new_ids_iff ids rows puuid mid).mp hmem
  exact hm.2 (h mid hm.1)

/-- Iterated sync rounds (any players, any discovered lists without
internal duplicates) preserve key uniqueness. -/
lemma sync_fold_nodup (runs : List (List String × String)) :
    ∀ rows : List (String × String), rows.Nodup → (∀ r ∈ runs, r.1.Nodup) →
      (runs.foldl (fun st r => sync_insert st r.1 r.2) rows).Nodup := by
  induction runs with
  | nil =>
    intro rows h _
    simpa using h
  | cons r rest ih =>
    intro rows hrows hall
    simp only [List.foldl_cons]
    exact ih (sync_insert rows r.1 r.2)
      (sync_insert_nodup rows r.1 r.2 hrows (hall r (List.mem_cons_self r rest)))
      (fun b hb => hall b (List.mem_cons_of_mem r hb))

/-- A timeline round preserves key uniqueness when the processed
identifier list has no duplicates. -/
lemma process_timelines_insert_nodup (summaries : List (String × String))
    (ids : List String) (puuid : String) (ok : String → Bool)
    (hs : summaries.Nodup) (hids : ids.Nodup) :
    (process_timelines_insert summaries ids puuid ok).Nodup := by
  refine List.Nodup.append hs
    (List.Nodup.map (fun a b h => congrArg Prod.fst h) ((hids.filter _).filter _)) ?_
  rw [List.disjoint_left]
  intro a ha hb
  obtain ⟨mid, hmid, rfl⟩ := List.mem_map.mp hb
  have h1 := (List.mem_filter.mp hmid).1
  have h2 := (List.mem_filter.mp h1).2
  simp only [decide_not, Bool.not_eq_true', decide_eq_false_iff_not] at h2
  exact h2 (List.mem_filter.mpr ⟨ha, by simp⟩)

/-- Claim C2: sync and timeline rounds preserve at-most-one-row per
(match id, player id) pair — a single round, and any sequence of rounds
across any players, keeps the key list duplicate-free when each round's
discovered identifier list is itself duplicate-free (the pager's pages
are slices of one upstream listing) — and re-running with no new
upstream matches inserts zero rows: when every discovered pair is
already persisted (or summarised), the store is returned unchanged. -/
theorem claim2_idempotent_unique (rows summaries : List (String × String))
    (ids : List String) (puuid : String) (ok : String → Bool)
    (runs : List (List String × String)) :
    (rows.Nodup → ids.Nodup → (sync_insert rows ids puuid).Nodup) ∧
    ((∀ mid ∈ ids, (mid, puuid) ∈ rows) → sync_insert rows ids puuid = rows) ∧
    (rows.Nodup → (∀ r ∈ runs, r.1.Nodup) →
      (runs.foldl (fun st r => sync_insert st r.1 r.2) rows).Nodup) ∧
    (summaries.Nodup → ids.Nodup →
      (process_timelines_insert summaries ids puuid ok).Nodup) ∧
    ((∀ mid ∈ ids, (mid, puuid) ∈ summaries) →
      process_timelines_insert summaries ids puuid ok = summaries) := by
  refine ⟨fun h1 h2 => sync_insert_nodup rows ids puuid h1 h2, ?_,
    fun h1 h2 => sync_fold_nodup runs rows h1 h2,
    fun h1 h2 => process_timelines_insert_nodup summaries ids puuid ok h1 h2, ?_⟩
  · intro h
    rw [sync_insert, new_ids_eq_nil ids rows puuid h]
    simp
  · intro h
    have hnil : ids.filter (fun mid =>
        (mid, puuid) ∉ summaries.filter (fun s => s.2 == puuid)) = [] := by
      rw [List.eq_nil_iff_forall_not_mem]
      intro mid hmem
      have hm := List.mem_filter.mp hmem
      have h2 := hm.2
      simp only [decide_not, Bool.not_eq_true', decide_eq_false_iff_not] at h2
      exact h2 (List.mem_filter.mpr ⟨h mid hm.1, by simp⟩)
    rw [process_timelines_insert, hnil]
    simp

/-- Claim C2 witness: re-syncing the already persisted pair inserts
nothing, and a fresh two-round sync for two players stays
duplicate-free. -/
theorem claim2_idempotent_unique_witness :
    sync_insert [("m1", "p")] ["m1"] "p" = [("m1", "p")] ∧
    (([(["m1"], "alice"), (["m1"], "bob")].foldl
        (fun st r => sync_insert st r.1 r.2) ([] : List (String × String)))).Nodup :=
  ⟨(claim2_idempotent_unique [("m1", "p")] [] ["m1"] "p" (fun _ => true) []).2.1
      (by decide),
   (claim2_idempotent_unique [] [] ["m1"] "p" (fun _ => true)
      [(["m1"], "alice"), (["m1"], "bob")]).2.2.1 (by decide) (by decide)⟩

/-- Division instrumented with an explicit zero-denominator check: the
`none` result marks a division by zero that the Python code would raise
on. -/
def qdiv (a b : ℚ) : Option ℚ := if b = 0 then none else some (a / b)

/-- Sequence a list of checked results, failing if any member failed. -/
def seqOption {α : Type} : List (Option α) → Option (List α)
  | [] => some []
  | o :: rest => o.bind (fun a => (seqOption rest).map (a :: ·))

/-- `kill_participation` with its division checked (app.py line 572). -/
def kill_participation_checked (m : Match) : Option ℚ :=
  if 0 < m.team_kills then qdiv ((m.kills : ℚ) + m.assists) m.team_kills
  else some 0

/-- `damage_share` with its division checked (app.py line 576). -/
def damage_share_checked (m : Match) : Option ℚ :=
  if 0 < m.team_damage then qdiv (m.damage : ℚ) m.team_damage else some 0

/-- `gold_share` with its division checked (app.py line 580). -/
def gold_share_checked (m : Match) : Option ℚ :=
  if 0 < m.team_gold then qdiv (m.gold : ℚ) m.team_gold else some 0

/-- `vision_share` with its division checked (app.py line 584). -/
def vision_share_checked (m : Match) : Option ℚ :=
  if 0 < m.team_vision then qdiv (m.vision : ℚ) m.team_vision else some 0

/-- `cs_per_min` with both of its divisions checked (app.py line 588). -/
def cs_per_min_checked (m : Match) : Option ℚ :=
  if 0 < m.duration then
    (qdiv (m.duration : ℚ) 60).bind
      (fun d => qdiv ((m.cs : ℚ) + m.neutral_cs) d)
  else some 0

/-- `kda` with its division checked (app.py lines 655-656). -/
def kda_checked (m : Match) : Option ℚ :=
  if 0 < m.deaths then qdiv ((m.kills : ℚ) + m.assists) m.deaths
  else some ((m.kills : ℚ) + m.assists)

/-- Season-level death total (app.py line 543). -/
def total_deaths (ms : List Match) : Nat := (ms.map Match.deaths).sum

/-- Season-level assist total (app.py line 544). -/
def total_assists (ms : List Match) : Nat := (ms.map Match.assists).sum

/-- The monthly-average pass over one bucket with every division checked
(app.py lines 799-809): all eight averages divide by the bucket's match
count, and `avg_cs_per_min` additionally divides by the per-match
duration in minutes, guarded by `total_duration > 0`. -/
def month_avgs_checked (acc : MonthAcc) : Option (List ℚ) :=
  if 0 < acc.matches' then
    (qdiv (acc.wins : ℚ) acc.matches').bind fun winrate =>
    (qdiv (acc.total_kills : ℚ) acc.matches').bind fun avg_kills =>
    (qdiv (acc.total_deaths : ℚ) acc.matches').bind fun avg_deaths =>
    (qdiv (acc.total_assists : ℚ) acc.matches').bind fun avg_assists =>
    (if 0 < acc.total_duration then
        (qdiv (acc.total_cs : ℚ) acc.matches').bind fun avg_cs =>
        (qdiv (acc.total_duration : ℚ) acc.matches').bind fun avg_dur =>
        (qdiv avg_dur 60).bind fun avg_dur_min =>
        qdiv avg_cs avg_dur_min
      else some 0).bind fun avg_cs_per_min =>
    (qdiv acc.total_kp acc.matches').bind fun avg_kp =>
    (qdiv acc.total_damage_share acc.matches').bind fun avg_ds =>
    (qdiv acc.total_gold_share acc.matches').bind fun avg_gs =>
    some [winrate * 100, avg_kills, avg_deaths, avg_assists, avg_cs_per_min,
      avg_kp * 100, avg_ds * 100, avg_gs * 100]
  else some []

/-- The division-bearing computations of `get_stats` with every division
checked: the per-match ratios and KDA over all persisted matches, the
season averages over the match count (guarded by the early return on an
empty match set, app.py lines 532-539), and the monthly averages. -/
def get_stats_checked (ms : List Match) :
    Option (List ℚ × List ℚ × List (List ℚ)) :=
  if ms = [] then some ([], [], [])
  else
    (seqOption (ms.map kill_participation_checked)).bind fun kps =>
    (seqOption (ms.map damage_share_checked)).bind fun dss =>
    (seqOption (ms.map gold_share_checked)).bind fun gss =>
    (seqOption (ms.map vision_share_checked)).bind fun vss =>
    (seqOption (ms.map cs_per_min_checked)).bind fun cspms =>
    (seqOption (ms.map kda_checked)).bind fun kdas =>
    (qdiv (total_kills ms : ℚ) (ms.length : ℚ)).bind fun avg_kills =>
    (qdiv (total_deaths ms : ℚ) (ms.length : ℚ)).bind fun avg_deaths =>
    (qdiv (total_assists ms : ℚ) (ms.length : ℚ)).bind fun avg_assists =>
    (qdiv (total_wins ms : ℚ) (ms.length : ℚ)).bind fun win_rate =>
    (seqOption ((monthly_stats ms).map (fun e => month_avgs_checked e.2))).bind
      fun months =>
    some (kps ++ dss ++ gss ++ vss ++ cspms,
      kdas ++ [avg_kills, avg_deaths, avg_assists, win_rate * 100], months)

/-- A checked division with a non-zero denominator yields its value. -/
lemma qdiv_eq (a b : ℚ) (hb : b ≠ 0) : qdiv a b = some (a / b) := by
  simp [qdiv, hb]

/-- A checked division with a non-zero denominator succeeds. -/
lemma qdiv_isSome (a b : ℚ) (hb : b ≠ 0) : (qdiv a b).isSome := by
  simp [qdiv, hb]

/-- Binding two succeeding checked computations succeeds. -/
lemma isSome_bind {α β : Type} (o : Option α) (f : α → Option β)
    (ho : o.isSome) (hf : ∀ a, (f a).isSome) : (o.bind f).isSome := by
  obtain ⟨a, ha⟩ := Option.isSome_iff_exists.mp ho
  simp [ha, hf a]

/-- Sequencing succeeds when every member succeeds. -/
lemma seqOption_isSome {α : Type} (l : List (Option α))
    (h : ∀ o ∈ l, o.isSome) : (seqOption l).isSome := by
  induction l with
  | nil => simp [seqOption]
  | cons o rest ih =>
    obtain ⟨a, ha⟩ := Option.isSome_iff_exists.mp (h o (List.mem_cons_self o rest))
    obtain ⟨bs, hbs⟩ := Option.isSome_iff_exists.mp
      (ih (fun b hb => h b (List.mem_cons_of_mem o hb)))
    simp [seqOption, ha, hbs]

/-- Sequencing a mapped checked computation succeeds when it succeeds
pointwise. -/
lemma seqOption_map_isSome {α β : Type} (f : α → Option β) (l : List α)
    (hf : ∀ a, (f a).isSome) : (seqOption (l.map f)).isSome :=
  seqOption_isSome _ (fun o ho => by
    obtain ⟨a, _, rfl⟩ := List.mem_map.mp ho
    exact hf a)

/-- The checked kill participation always succeeds. -/
lemma kill_participation_checked_isSome (m : Match) :
    (kill_participation_checked m).isSome := by
  unfold kill_participation_checked
  split_ifs with h
  · exact qdiv_isSome _ _ (Nat.cast_pos.mpr h).ne'
  · simp

/-- The checked damage share always succeeds. -/
lemma damage_share_checked_isSome (m : Match) :
    (damage_share_checked m).isSome := by
  unfold damage_share_checked
  split_ifs with h
  · exact qdiv_isSome _ _ (Nat.cast_pos.mpr h).ne'
  · simp

/-- The checked gold share always succeeds. -/
lemma gold_share_checked_isSome (m : Match) :
    (gold_share_checked m).isSome := by
  unfold gold_share_checked
  split_ifs with h
  · exact qdiv_isSome _ _ (Nat.cast_pos.mpr h).ne'
  · simp

/-- The checked vision share always succeeds. -/
lemma vision_share_checked_isSome (m : Match) :
    (vision_share_checked m).isSome := by
  unfold vision_share_checked
  split_ifs with h
  · exact qdiv_isSome _ _ (Nat.cast_pos.mpr h).ne'
  · simp

/-- The checked CS per minute always succeeds. -/
lemma cs_per_min_checked_isSome (m : Match) :
    (cs_per_min_checked m).isSome := by
  unfold cs_per_min_checked
  split_ifs with h
  · have hd : (m.duration : ℚ) ≠ 0 := (Nat.cast_pos.mpr h).ne'
    rw [qdiv_eq _ _ (by norm_num : (60 : ℚ) ≠ 0), Option.some_bind]
    exact qdiv_isSome _ _ (div_ne_zero hd (by norm_num))
  · simp

/-- The checked KDA always succeeds. -/
lemma kda_checked_isSome (m : Match) : (kda_checked m).isSome := by
  unfold kda_checked
  split_ifs with h
  · exact qdiv_isSome _ _ (Nat.cast_pos.mpr h).ne'
  · simp

/-- Binding a checked computation with a known value succeeds when the
continuation succeeds at that value. -/
lemma isSome_bind_eq {α β : Type} {o : Option α} {a : α} (f : α → Option β)
    (ho : o = some a) (hf : (f a).isSome) : (o.bind f).isSome := by
  rw [ho, Option.some_bind]
  exact hf

/-- The checked monthly averages always succeed: every division is
guarded. -/
lemma month_avgs_checked_isSome (acc : MonthAcc) :
    (month_avgs_checked acc).isSome := by
  unfold month_avgs_checked
  split_ifs with h hdur
  · have h1 : ((acc.matches' : ℚ)) ≠ 0 := (Nat.cast_pos.mpr h).ne'
    have h2 : ((acc.total_duration : ℚ)) ≠ 0 := (Nat.cast_pos.mpr hdur).ne'
    have h3 : ((60 : ℚ)) ≠ 0 := by norm_num
    have h4 : ((acc.total_duration : ℚ) / acc.matches') ≠ 0 := div_ne_zero h2 h1
    have h5 : ((acc.total_duration : ℚ) / acc.matches' / 60) ≠ 0 :=
      div_ne_zero h4 h3
    apply isSome_bind _ _ (qdiv_isSome _ _ h1)
    intro winrate
    apply isSome_bind _ _ (qdiv_isSome _ _ h1)
    intro avg_kills
    apply isSome_bind _ _ (qdiv_isSome _ _ h1)
    intro avg_deaths
    apply isSome_bind _ _ (qdiv_isSome _ _ h1)
    intro avg_assists
    apply isSome_bind
    · refine isSome_bind_eq _ (qdiv_eq _ _ h1) ?_
      refine isSome_bind_eq _ (qdiv_eq _ _ h1) ?_
      refine isSome_bind_eq _ (qdiv_eq _ _ h3) ?_
      exact qdiv_isSome _ _ h5
    · intro avg_cs_per_min
      apply isSome_bind _ _ (qdiv_isSome _ _ h1)
      intro avg_kp
      apply isSome_bind _ _ (qdiv_isSome _ _ h1)
      intro avg_ds
      apply isSome_bind _ _ (qdiv_isSome _ _ h1)
      intro avg_gs
      simp
  · have h1 : ((acc.matches' : ℚ)) ≠ 0 := (Nat.cast_pos.mpr h).ne'
    apply isSome_bind _ _ (qdiv_isSome _ _ h1)
    intro winrate
    apply isSome_bind _ _ (qdiv_isSome _ _ h1)
    intro avg_kills
    apply isSome_bind _ _ (qdiv_isSome _ _ h1)
    intro avg_deaths
    apply isSome_bind _ _ (qdiv_isSome _ _ h1)
    intro avg_assists
    apply isSome_bind _ _ (by simp : (some (0 : ℚ)).isSome)
    intro avg_cs_per_min
    apply isSome_bind _ _ (qdiv_isSome _ _ h1)
    intro avg_kp
    apply isSome_bind _ _ (qdiv_isSome _ _ h1)
    intro avg_ds
    apply isSome_bind _ _ (qdiv_isSome _ _ h1)
    intro avg_gs
    simp
  · simp

/-- Claim C10: the stats aggregation is total — with every division of
`get_stats` instrumented by an explicit zero-denominator check, the
aggregation succeeds on every persisted match list, including matches
with zero duration, zero team totals or zero deaths. -/
theorem claim10_no_division_by_zero (ms : List Match) :
    (get_stats_checked ms).isSome := by
  by_cases h : ms = []
  · unfold get_stats_checked
    rw [if_pos h]
    rfl
  · unfold get_stats_checked
    rw [if_neg h]
    have hlen : ((ms.length : ℚ)) ≠ 0 := by
      have hne : ms.length ≠ 0 := fun hc => h (List.eq_nil_of_length_eq_zero hc)
      exact_mod_cast hne
    apply isSome_bind _ _ (seqOption_map_isSome _ _ kill_participation_checked_isSome)
    intro kps
    apply isSome_bind _ _ (seqOption_map_isSome _ _ damage_share_checked_isSome)
    intro dss
    apply isSome_bind _ _ (seqOption_map_isSome _ _ gold_share_checked_isSome)
    intro gss
    apply isSome_bind _ _ (seqOption_map_isSome _ _ vision_share_checked_isSome)
    intro vss
    apply isSome_bind _ _ (seqOption_map_isSome _ _ cs_per_min_checked_isSome)
    intro cspms
    apply isSome_bind _ _ (seqOption_map_isSome _ _ kda_checked_isSome)
    intro kdas
    apply isSome_bind _ _ (qdiv_isSome _ _ hlen)
    intro avg_kills
    apply isSome_bind _ _ (qdiv_isSome _ _ hlen)
    intro avg_deaths
    apply isSome_bind _ _ (qdiv_isSome _ _ hlen)
    intro avg_assists
    apply isSome_bind _ _ (qdiv_isSome _ _ hlen)
    intro win_rate
    apply isSome_bind _ _
      (seqOption_isSome _ (fun o ho => by
        obtain ⟨e, _, rfl⟩ := List.mem_map.mp ho
        exact month_avgs_checked_isSome e.2))
    intro months
    simp

/-- Claim C4 witness: the classification theorem instantiated at the
spec's first example. -/
theorem claim4_comeback_classification_witness :
    comeback_type 150 800 = "dominated" :=
  claim4_comeback_classification.2.1

/-- Claim C6 witness: the bucket sums of a one-match list equal the
one-match totals. -/
theorem claim6_monthly_totals_witness :
    ((monthly_stats [sample_row "p" 5000]).map (fun e => e.2.matches')).sum = 1 :=
  (claim6_monthly_totals [sample_row "p" 5000]).2.1

/-- A persisted row with zero duration, zero deaths and all four team
totals zero — the degenerate inputs named by the totality claim. -/
def zero_match : Match :=
  { sample_row "p" 0 with
    duration := 0
    deaths := 0
    team_kills := 0
    team_damage := 0
    team_gold := 0
    team_vision := 0 }

/-- Claim C10 witness: the checked aggregation succeeds on the
all-zero-denominator row. -/
theorem claim10_no_division_by_zero_witness :
    (get_stats_checked [zero_match]).isSome :=
  claim10_no_division_by_zero [zero_match]
